import Mathlib

/-!
Shallow embedding of the image-quality / readability scorer of the
`nextjs-ocr-demo` repository (the `DocumentBlurDetector` class of the
blur-detection API route, and the `DocumentReadabilityChecker` class of the
document-readability API route), together with theorems checking the
natural-language specification against it.

Grayscale pixel buffers (`Uint8Array` in the source) are embedded as
`List ℕ` with intensities in `0..255`; JavaScript numeric arithmetic is
embedded over `ℚ` (and over `ℝ` where `Math.sqrt` is involved).  The
external collaborators (sharp image decoding, tesseract OCR) are passed in
as explicit inputs: the decoded metadata, the decoded grayscale buffer, the
recognized text and the reported confidence.
-/

namespace OCRDemo

/-- The arithmetic mean of a pixel buffer, as computed by both classes
(`data.reduce((sum, value) => sum + value, 0) / data.length`). -/
def mean (data : List ℕ) : ℚ :=
  (data.sum : ℚ) / (data.length : ℚ)

/-- Source `DocumentBlurDetector.calculateVariance`: the average of the squared
deviations from the mean (population variance).  The same formula is inlined
in `DocumentReadabilityChecker.analyzeImageQuality`. -/
def calculateVariance (data : List ℕ) : ℚ :=
  ((data.map fun (value : ℕ) => ((value : ℚ) - mean data) ^ 2).sum) /
    ((data.map fun (value : ℕ) => ((value : ℚ) - mean data) ^ 2).length : ℚ)

/-- Source `DocumentReadabilityChecker.calculateReadabilityScore`: builds the
weight table and the normalized sub-score table and folds over the factors
in their fixed key order (`confidence`, `blur`, `contrast`, `wordCount`),
accumulating `score + scores[factor] * weights[factor]` from `0`.
Generic over the ordered field so that it can be used both over `ℚ` and,
inside `checkReadability` where the contrast carries a square root, over
`ℝ`. -/
def calculateReadabilityScore {α : Type} [LinearOrderedField α]
    (confidenceScore blurScore contrast wordCount : α) : α :=
  let weights : List (α × α) :=
    [(0.4, confidenceScore),
     (0.3, (1 - blurScore) * 100),
     (0.2, contrast * 100),
     (0.1, min (wordCount / 10 * 100) 100)]
  weights.foldl (fun score factor => score + factor.2 * factor.1) 0

/-- Configuration of `DocumentBlurDetector` (the `BlurDetectorOptions`
interface); the blur-detection route instantiates it with threshold `0.15`
and minimum size `400×400`. -/
structure BlurDetectorOptions where
  blurThreshold : ℚ
  minWidth : ℕ
  minHeight : ℕ

/-- The metadata sharp reports for the decoded image (`width`, `height`,
`format`): decoding is an external collaborator, so the metadata is an
input of the embedded functions. -/
structure ImageMetadata where
  width : ℕ
  height : ℕ
  format : String

/-- The `quality` record of a blur-detection result. -/
structure BlurQuality where
  brightness : ℚ
  contrast : ℝ
  width : ℕ
  height : ℕ
  format : String

/-- The successful result of `DocumentBlurDetector.detectBlur`. -/
structure BlurDetectionResult where
  isBlurry : Bool
  blurScore : ℚ
  quality : BlurQuality
  threshold : ℚ
  recommendation : String

/-- Source `DocumentBlurDetector.detectBlur`, with the sharp decoding step
externalized: the function receives the reported metadata and the decoded
grayscale buffer.  A zero or sub-minimum width or height throws; the
surrounding `catch` rethrows with the `Error analyzing image:` prefix, so
the embedded error branch carries the wrapped message.  (`!metadata.width`
is JavaScript-falsy exactly when the width is `0` or missing, hence the
`= 0` disjuncts.) -/
noncomputable def detectBlur (opts : BlurDetectorOptions)
    (meta : ImageMetadata) (data : List ℕ) :
    Except String BlurDetectionResult :=
  if meta.width = 0 ∨ meta.height = 0 ∨ meta.width < opts.minWidth ∨
      meta.height < opts.minHeight then
    .error ("Error analyzing image: Image resolution too low. Minimum required: " ++
      toString opts.minWidth ++ "x" ++ toString opts.minHeight)
  else
    let variance := calculateVariance data
    let normalizedVariance := variance / (255 * 255)
    let brightness := mean data
    let contrast : ℝ :=
      Real.sqrt (((data.map fun (value : ℕ) => ((value : ℚ) - brightness) ^ 2).sum /
        (data.length : ℚ) : ℚ) : ℝ)
    let isBlurry := decide (normalizedVariance < opts.blurThreshold)
    .ok
      { isBlurry := isBlurry
        blurScore := normalizedVariance
        quality :=
          { brightness := brightness / 255
            contrast := contrast / 255
            width := meta.width
            height := meta.height
            format := meta.format }
        threshold := opts.blurThreshold
        recommendation :=
          if isBlurry then "Image is too blurry, please provide a clearer image"
          else "Image quality is acceptable" }

/-- Configuration of `DocumentReadabilityChecker`; the readability route
instantiates it with blur threshold `0.15`, minimum confidence `60` and
minimum text length `10`. -/
structure ReadabilityCheckerOptions where
  blurThreshold : ℚ
  minConfidence : ℚ
  minTextLength : ℕ

/-- The interior pixel coordinates `(y, x)` visited by the two nested
loops of `calculateBlurScore` (`for y = 1; y < height-1` outer,
`for x = 1; x < width-1` inner), in visit order. -/
def interiorCoords (width height : ℕ) : List (ℕ × ℕ) :=
  ((List.range (height - 2)).map fun i => i + 1).flatMap fun y =>
    ((List.range (width - 2)).map fun i => i + 1).map fun x => (y, x)

/-- The discrete Laplacian read off at flat index `idx` of the pixel
buffer: `pixels[idx]*4 - pixels[idx-1] - pixels[idx+1] - pixels[idx-width]
- pixels[idx+width]`, as a (possibly negative) integer. -/
def laplacianAt (pixels : List ℕ) (width idx : ℕ) : ℤ :=
  (pixels.getD idx 0 : ℤ) * 4 - (pixels.getD (idx - 1) 0 : ℤ) -
    (pixels.getD (idx + 1) 0 : ℤ) - (pixels.getD (idx - width) 0 : ℤ) -
    (pixels.getD (idx + width) 0 : ℤ)

/-- Source `DocumentReadabilityChecker.calculateBlurScore`: sum the absolute
Laplacian over the interior pixels, divide by their count, and clamp
`1 - laplacianVariance/255` to `[0,1]`.  The source divides
`laplacianSum / count` with no guard; when `width ≤ 2` or `height ≤ 2` the
loops never run and the division is `0/0` (`NaN` in JavaScript), so the
embedding guards that branch with `none`. -/
def calculateBlurScore (pixels : List ℕ) (width height : ℕ) : Option ℚ :=
  let coords := interiorCoords width height
  let laplacianSum : ℕ :=
    (coords.map fun c => (laplacianAt pixels width (c.1 * width + c.2)).natAbs).sum
  let count := coords.length
  if count = 0 then none
  else
    let laplacianVariance : ℚ := (laplacianSum : ℚ) / (count : ℚ)
    some (max 0 (min 1 (1 - laplacianVariance / 255)))

/-- The record returned by `analyzeImageQuality`. -/
structure QualityMetrics where
  contrast : ℝ
  blurScore : ℚ
  brightness : ℚ
  resolution : ℕ

/-- Source `DocumentReadabilityChecker.analyzeImageQuality`: mean, population
variance, `contrast = sqrt(variance)/255`, `brightness = mean/255`, and the
Laplacian blur score; `none` exactly when the blur score is the unguarded
`0/0`. -/
noncomputable def analyzeImageQuality (pixels : List ℕ) (width height : ℕ) :
    Option QualityMetrics :=
  (calculateBlurScore pixels width height).map fun blurScore =>
    { contrast := Real.sqrt ((calculateVariance pixels : ℚ) : ℝ) / 255
      blurScore := blurScore
      brightness := mean pixels / 255
      resolution := width * height }

/-- Source `DocumentReadabilityChecker.generateSuggestions`: the suggestion list
built by the fixed sequence of `push` statements.  Generic over the ordered
field for the same reason as `calculateReadabilityScore`. -/
def generateSuggestions {α : Type} [LinearOrderedField α]
    (blurThreshold minConfidence : α)
    (readabilityScore blurScore contrast brightness confidenceScore : α) :
    List String :=
  (if readabilityScore < 50 then
    ["Overall document quality is poor. Consider recapturing with better lighting and focus."]
  else if readabilityScore < 70 then
    ["Document quality could be improved for better text recognition."]
  else []) ++
  (if blurScore > blurThreshold then
    ["Document appears blurry. Try capturing a clearer image."]
  else []) ++
  (if contrast < 0.4 then
    ["Low contrast detected. Ensure good lighting and clear background."]
  else []) ++
  (if brightness < 0.3 ∨ brightness > 0.8 then
    ["Suboptimal brightness. Adjust lighting conditions."]
  else []) ++
  (if confidenceScore < minConfidence then
    ["Text recognition confidence is low. Ensure text is clear and well-aligned."]
  else [])

/-- The `details` record of a readability result. -/
structure ReadabilityDetails where
  wordCount : ℕ
  confidenceScore : ℚ
  imageQuality : QualityMetrics
  width : ℕ
  height : ℕ
  format : String

/-- The result of `checkReadability`.  `isReadable` is the boolean
`readabilityScore >= 70`, embedded as the corresponding proposition since
the score lives in `ℝ`. -/
structure ReadabilityResult where
  isReadable : Prop
  readabilityScore : ℝ
  details : ReadabilityDetails
  text : String
  suggestions : List String

/-- Source `DocumentReadabilityChecker.checkReadability`, with the external
collaborators (sharp preprocessing/decoding, tesseract OCR) externalized:
the function receives the metadata, the decoded grayscale buffer of the
preprocessed image, the recognized text and the reported confidence.  The
word list `ocrResult.split(/\s+/).filter(word => word.length > 0)` is
embedded on the character list of the text.  Note: the function performs no
minimum-resolution check of its own. -/
noncomputable def checkReadability (opts : ReadabilityCheckerOptions)
    (meta : ImageMetadata) (pixels : List ℕ) (ocrResult : String)
    (confidenceScore : ℚ) : Option ReadabilityResult :=
  (analyzeImageQuality pixels meta.width meta.height).map fun qualityMetrics =>
    let words :=
      (ocrResult.toList.splitOnP fun c => c.isWhitespace).filter fun w => 0 < w.length
    let readabilityScore : ℝ :=
      calculateReadabilityScore (confidenceScore : ℝ)
        ((qualityMetrics.blurScore : ℚ) : ℝ) qualityMetrics.contrast
        ((words.length : ℕ) : ℝ)
    { isReadable := 70 ≤ readabilityScore
      readabilityScore := readabilityScore
      details :=
        { wordCount := words.length
          confidenceScore := confidenceScore
          imageQuality := qualityMetrics
          width := meta.width
          height := meta.height
          format := meta.format }
      text := ocrResult
      suggestions :=
        generateSuggestions (opts.blurThreshold : ℝ) (opts.minConfidence : ℝ)
          readabilityScore ((qualityMetrics.blurScore : ℚ) : ℝ)
          qualityMetrics.contrast ((qualityMetrics.brightness : ℚ) : ℝ)
          (confidenceScore : ℝ) }

end OCRDemo

namespace OCRDemo

/-- Evaluation of the readability-score fold into its closed form (shared
helper). -/
theorem readability_score_eval {α : Type} [LinearOrderedField α]
    (confidenceScore blurScore contrast wordCount : α) :
    calculateReadabilityScore confidenceScore blurScore contrast wordCount =
      0.4 * confidenceScore + 0.3 * ((1 - blurScore) * 100) +
        0.2 * (contrast * 100) + 0.1 * min (wordCount / 10 * 100) 100 := by
  simp only [calculateReadabilityScore, List.foldl_cons, List.foldl_nil]
  ring

/-- C1: `calculateReadabilityScore` is exactly the weighted linear
combination `0.4·confidence + 0.3·((1−blur)·100) + 0.2·(contrast·100) +
0.1·min(wordCount/10·100, 100)`. -/
theorem calculateReadabilityScore_closed_form {α : Type} [LinearOrderedField α]
    (confidenceScore blurScore contrast wordCount : α) :
    calculateReadabilityScore confidenceScore blurScore contrast wordCount =
      0.4 * confidenceScore + 0.3 * ((1 - blurScore) * 100) +
        0.2 * (contrast * 100) + 0.1 * min (wordCount / 10 * 100) 100 :=
  readability_score_eval confidenceScore blurScore contrast wordCount

/-- C1 witness: the closed form at a concrete rational input. -/
theorem calculateReadabilityScore_closed_form_witness :
    calculateReadabilityScore (90 : ℚ) 0 (1 / 2) 50 =
      0.4 * 90 + 0.3 * ((1 - 0) * 100) + 0.2 * (1 / 2 * 100) +
        0.1 * min ((50 : ℚ) / 10 * 100) 100 :=
  calculateReadabilityScore_closed_form 90 0 (1 / 2) 50

/-- C3 counterexample: the readability score is *not* monotonically
non-decreasing in `blurScore`: raising the blur score from `0` to `1`
(others fixed at `0`) strictly lowers the score from `30` to `0`. -/
theorem readabilityScore_not_monotone_in_blur :
    calculateReadabilityScore (0 : ℚ) 1 0 0 <
      calculateReadabilityScore (0 : ℚ) 0 0 0 := by
  simp only [calculateReadabilityScore, List.foldl_cons, List.foldl_nil]
  norm_num

/-- C3 amended: the readability score is monotonically non-decreasing in
`confidenceScore`, `contrast` and `wordCount`, and monotonically
non-increasing in `blurScore`, the other three inputs held fixed. -/
theorem readabilityScore_monotone {α : Type} [LinearOrderedField α]
    (c₁ c₂ b₁ b₂ t₁ t₂ w₁ w₂ c b t w : α)
    (hc : c₁ ≤ c₂) (hb : b₁ ≤ b₂) (ht : t₁ ≤ t₂) (hw : w₁ ≤ w₂) :
    calculateReadabilityScore c₁ b t w ≤ calculateReadabilityScore c₂ b t w ∧
    calculateReadabilityScore c b₂ t w ≤ calculateReadabilityScore c b₁ t w ∧
    calculateReadabilityScore c b t₁ w ≤ calculateReadabilityScore c b t₂ w ∧
    calculateReadabilityScore c b t w₁ ≤ calculateReadabilityScore c b t w₂ := by
  simp only [readability_score_eval]
  refine ⟨by nlinarith, by nlinarith, by nlinarith, ?_⟩
  have hmin : min (w₁ / 10 * 100) 100 ≤ min (w₂ / 10 * 100) 100 := by
    apply min_le_min _ le_rfl
    nlinarith
  nlinarith [hmin]

/-- C2 counterexample: the readability path performs no minimum-resolution
check: on a 3×3 image — far below the 400×400 minimum the routes configure —
`checkReadability` silently proceeds and produces a result instead of
raising `ResolutionTooLowError`. -/
theorem checkReadability_no_resolution_check :
    (checkReadability ⟨0.15, 60, 10⟩ ⟨3, 3, "png"⟩
      [0, 255, 0, 255, 0, 255, 0, 255, 0] "hello world" 80).isSome = true := by
  simp only [checkReadability, analyzeImageQuality, Option.isSome_map]
  decide

/-- C2 amended: only the blur-check path enforces the minimum resolution:
`detectBlur` on an image below the configured minimum returns the error
carrying the required minimum (before any scoring), while `checkReadability`
produces a result exactly when the Laplacian loop runs (its only failure
mode is the unguarded `0/0`, never a resolution check). -/
theorem resolution_check_only_on_blur_path (opts : BlurDetectorOptions)
    (ropts : ReadabilityCheckerOptions) (meta : ImageMetadata)
    (data pixels : List ℕ) (ocrResult : String) (confidenceScore : ℚ)
    (h : meta.width < opts.minWidth ∨ meta.height < opts.minHeight) :
    detectBlur opts meta data =
      .error ("Error analyzing image: Image resolution too low. Minimum required: " ++
        toString opts.minWidth ++ "x" ++ toString opts.minHeight) ∧
    (checkReadability ropts meta pixels ocrResult confidenceScore).isSome =
      (calculateBlurScore pixels meta.width meta.height).isSome := by
  constructor
  · rw [detectBlur, if_pos]
    tauto
  · simp [checkReadability, analyzeImageQuality]

/-- C2 amended, witness: a 3×3 image against the configured 400×400
minimum. -/
theorem resolution_check_only_on_blur_path_witness :
    detectBlur ⟨0.15, 400, 400⟩ ⟨3, 3, "png"⟩ [] =
      .error ("Error analyzing image: Image resolution too low. Minimum required: " ++
        toString (400 : ℕ) ++ "x" ++ toString (400 : ℕ)) ∧
    (checkReadability ⟨0.15, 60, 10⟩ ⟨3, 3, "png"⟩
      [10, 20, 30, 40, 50, 60, 70, 80, 90] "some text" 50).isSome =
      (calculateBlurScore [10, 20, 30, 40, 50, 60, 70, 80, 90] 3 3).isSome :=
  resolution_check_only_on_blur_path ⟨0.15, 400, 400⟩ ⟨0.15, 60, 10⟩
    ⟨3, 3, "png"⟩ [] [10, 20, 30, 40, 50, 60, 70, 80, 90] "some text" 50
    (Or.inl (by norm_num))

/-- Spec-side: the population variance of the intensities, written through
the second-moment identity `E[v²] − E[v]²` rather than through the mean of
squared deviations the source computes — the two are compared in the C5
theorem. -/
def populationVariance (data : List ℕ) : ℚ :=
  ((data.map fun (v : ℕ) => (v : ℚ) ^ 2).sum) / (data.length : ℚ) - mean data ^ 2

/-- Sum of squared deviations from an arbitrary center, expanded. -/
theorem sum_sq_dev (l : List ℕ) (μ : ℚ) :
    (l.map fun (v : ℕ) => ((v : ℚ) - μ) ^ 2).sum =
      (l.map fun (v : ℕ) => ((v : ℚ)) ^ 2).sum - 2 * μ * (l.sum : ℚ) +
        (l.length : ℚ) * μ ^ 2 := by
  induction l with
  | nil => simp
  | cons a l ih =>
    simp only [List.map_cons, List.sum_cons, List.length_cons, ih,
      Nat.cast_add, Nat.cast_succ]
    ring

/-- The variance the source computes (mean of squared deviations) is the
population variance. -/
theorem calculateVariance_eq_populationVariance (data : List ℕ)
    (h : data ≠ []) :
    calculateVariance data = populationVariance data := by
  have hn : (data.length : ℚ) ≠ 0 := by
    have h0 : data.length ≠ 0 := fun hl => h (List.length_eq_zero.mp hl)
    exact_mod_cast h0
  rw [calculateVariance, populationVariance, List.length_map, sum_sq_dev, mean]
  field_simp
  ring

/-- C5: on the blur-check path, for a non-empty buffer and an image passing
the size check, the returned `blurScore` is the population variance of the
intensities divided by `255²`, and `isBlurry` holds exactly when that
normalized variance is strictly below the configured threshold. -/
theorem detectBlur_blurScore_spec (opts : BlurDetectorOptions)
    (meta : ImageMetadata) (data : List ℕ) (hdata : data ≠ [])
    (hw0 : meta.width ≠ 0) (hh0 : meta.height ≠ 0)
    (hw : opts.minWidth ≤ meta.width) (hh : opts.minHeight ≤ meta.height) :
    ∃ r, detectBlur opts meta data = .ok r ∧
      r.blurScore = populationVariance data / (255 * 255) ∧
      (r.isBlurry = true ↔ r.blurScore < opts.blurThreshold) := by
  rw [detectBlur, if_neg (by push_neg; omega)]
  refine ⟨_, rfl, ?_, ?_⟩
  · simp only [calculateVariance_eq_populationVariance data hdata]
  · simp only [decide_eq_true_eq]

/-- C5 witness: a concrete 2×2 buffer of alternating 0/255 pixels. -/
theorem detectBlur_blurScore_spec_witness :
    ∃ r, detectBlur ⟨0.15, 1, 1⟩ ⟨2, 2, "raw"⟩ [0, 255, 0, 255] = .ok r ∧
      r.blurScore = populationVariance [0, 255, 0, 255] / (255 * 255) ∧
      (r.isBlurry = true ↔ r.blurScore < (⟨0.15, 1, 1⟩ : BlurDetectorOptions).blurThreshold) :=
  detectBlur_blurScore_spec ⟨0.15, 1, 1⟩ ⟨2, 2, "raw"⟩ [0, 255, 0, 255]
    (by decide) (by decide) (by decide) (by decide) (by decide)

/-- Spec-side: the pixel read at coordinates `(x, y)` of a `width`-wide
buffer. -/
def pixelAt (pixels : List ℕ) (width x y : ℕ) : ℤ :=
  (pixels.getD (y * width + x) 0 : ℤ)

/-- Spec-side: the discrete Laplacian `4·center − left − right − top −
bottom` at coordinates `(x, y)`, as the spec states it. -/
def specLaplacian (pixels : List ℕ) (width x y : ℕ) : ℤ :=
  4 * pixelAt pixels width x y - pixelAt pixels width (x - 1) y -
    pixelAt pixels width (x + 1) y - pixelAt pixels width x (y - 1) -
    pixelAt pixels width x (y + 1)

/-- Spec-side: the average over all interior pixels of the absolute
discrete Laplacian, the interior excluding a 1-pixel border. -/
def specLaplacianVariance (pixels : List ℕ) (width height : ℕ) : ℚ :=
  (∑ y ∈ Finset.Ico 1 (height - 1), ∑ x ∈ Finset.Ico 1 (width - 1),
    ((specLaplacian pixels width x y).natAbs : ℚ)) /
    (((width - 2) * (height - 2) : ℕ) : ℚ)

/-- The flat-index neighbour reads of the source agree with the coordinate
reads of the spec away from the left and top borders. -/
theorem laplacianAt_eq_specLaplacian (pixels : List ℕ) (width x y : ℕ)
    (hx : 1 ≤ x) (hy : 1 ≤ y) :
    laplacianAt pixels width (y * width + x) = specLaplacian pixels width x y := by
  obtain ⟨x', rfl⟩ : ∃ x', x = x' + 1 := ⟨x - 1, by omega⟩
  obtain ⟨y', rfl⟩ : ∃ y', y = y' + 1 := ⟨y - 1, by omega⟩
  unfold laplacianAt specLaplacian pixelAt
  have e1 : (y' + 1) * width + (x' + 1) - 1 = (y' + 1) * width + (x' + 1 - 1) := by
    omega
  have e3 : (y' + 1) * width + (x' + 1) - width = (y' + 1 - 1) * width + (x' + 1) := by
    simp only [add_mul, one_mul, Nat.add_sub_cancel]
    generalize y' * width = a
    omega
  have e4 : (y' + 1) * width + (x' + 1) + width = (y' + 1 + 1) * width + (x' + 1) := by
    simp only [add_mul, one_mul]
    ring
  rw [e1, e3, e4]
  ring_nf

/-- Sum of a list obtained by `flatMap`, split into inner sums. -/
theorem list_sum_flatMap {α β M : Type} [AddCommMonoid M] (l : List α)
    (f : α → List β) (g : β → M) :
    ((l.flatMap f).map g).sum = (l.map fun a => ((f a).map g).sum).sum := by
  induction l with
  | nil => simp
  | cons a l ih => simp [List.flatMap_cons, ih]

/-- A list sum over `List.range` is the corresponding `Finset.range` sum. -/
theorem list_sum_range_map {M : Type} [AddCommMonoid M] (n : ℕ) (f : ℕ → M) :
    ((List.range n).map f).sum = ∑ i ∈ Finset.range n, f i := by
  induction n with
  | zero => simp
  | succ n ih =>
    rw [List.range_succ, List.map_append, List.sum_append, ih,
      Finset.sum_range_succ]
    simp

/-- A sum over the interior coordinate list is the double `Finset` sum over
the interior index ranges. -/
theorem sum_interiorCoords {M : Type} [AddCommMonoid M] (width height : ℕ)
    (g : ℕ → ℕ → M) :
    ((interiorCoords width height).map fun c => g c.1 c.2).sum =
      ∑ y ∈ Finset.Ico 1 (height - 1), ∑ x ∈ Finset.Ico 1 (width - 1), g y x := by
  have hh2 : height - 1 - 1 = height - 2 := by omega
  have hw2 : width - 1 - 1 = width - 2 := by omega
  rw [interiorCoords, list_sum_flatMap, List.map_map, list_sum_range_map,
    Finset.sum_Ico_eq_sum_range, hh2]
  refine Finset.sum_congr rfl fun i _ => ?_
  simp only [Function.comp_apply, List.map_map]
  rw [list_sum_range_map, Finset.sum_Ico_eq_sum_range, hw2]
  refine Finset.sum_congr rfl fun j _ => ?_
  simp only [Function.comp_apply]
  rw [Nat.add_comm 1 i, Nat.add_comm 1 j]

/-- The interior coordinate list has `(height−2)·(width−2)` entries. -/
theorem interiorCoords_length (width height : ℕ) :
    (interiorCoords width height).length = (height - 2) * (width - 2) := by
  rw [interiorCoords, List.length_flatMap, List.map_map, list_sum_range_map]
  simp [Function.comp, Finset.sum_const, smul_eq_mul, mul_comm]

/-- C4: for every buffer and dimensions at least `3×3`, the Laplacian
estimator returns exactly `clamp(1 − laplacianVariance/255, 0, 1)`, where
`laplacianVariance` is the average over all interior pixels (the 1-pixel
border excluded) of `|4·center − left − right − top − bottom|`. -/
theorem calculateBlurScore_spec (pixels : List ℕ) (width height : ℕ)
    (hw : 3 ≤ width) (hh : 3 ≤ height) :
    calculateBlurScore pixels width height =
      some (max 0 (min 1 (1 - specLaplacianVariance pixels width height / 255))) := by
  have hlen : (interiorCoords width height).length = (height - 2) * (width - 2) :=
    interiorCoords_length width height
  have hne : ¬((interiorCoords width height).length = 0) := by
    rw [hlen]
    have h1 : 1 ≤ height - 2 := by omega
    have h2 : 1 ≤ width - 2 := by omega
    positivity
  have hsum :
      ((interiorCoords width height).map fun c =>
        (laplacianAt pixels width (c.1 * width + c.2)).natAbs).sum =
      ∑ y ∈ Finset.Ico 1 (height - 1), ∑ x ∈ Finset.Ico 1 (width - 1),
        (specLaplacian pixels width x y).natAbs := by
    rw [sum_interiorCoords width height
      (fun y x => (laplacianAt pixels width (y * width + x)).natAbs)]
    refine Finset.sum_congr rfl fun y hy => Finset.sum_congr rfl fun x hx => ?_
    rw [laplacianAt_eq_specLaplacian pixels width x y
      (Finset.mem_Ico.mp hx).1 (Finset.mem_Ico.mp hy).1]
  have hvar :
      ((((interiorCoords width height).map fun c =>
          (laplacianAt pixels width (c.1 * width + c.2)).natAbs).sum : ℕ) : ℚ) /
        (((interiorCoords width height).length : ℕ) : ℚ) =
        specLaplacianVariance pixels width height := by
    rw [hsum, hlen, specLaplacianVariance, Nat.cast_sum,
      mul_comm (width - 2) (height - 2)]
    congr 1
    exact Finset.sum_congr rfl fun y _ => by rw [Nat.cast_sum]
  simp only [calculateBlurScore, if_neg hne]
  rw [hvar]

/-- C4 witness: a 3×3 buffer with a single interior pixel. -/
theorem calculateBlurScore_spec_witness :
    calculateBlurScore [0, 255, 0, 255, 0, 255, 0, 255, 0] 3 3 =
      some (max 0 (min 1 (1 - specLaplacianVariance
        [0, 255, 0, 255, 0, 255, 0, 255, 0] 3 3 / 255))) :=
  calculateBlurScore_spec [0, 255, 0, 255, 0, 255, 0, 255, 0] 3 3
    (by norm_num) (by norm_num)

/-- The mean intensity is non-negative. -/
theorem mean_nonneg (data : List ℕ) : 0 ≤ mean data := by
  rw [mean]
  positivity

/-- The mean of intensities bounded by 255 is at most 255. -/
theorem mean_le (data : List ℕ) (h : ∀ v ∈ data, v ≤ 255) :
    mean data ≤ 255 := by
  rcases eq_or_ne data [] with rfl | hne
  · simp [mean]
  · have hlen : 0 < (data.length : ℚ) := by
      have h0 : 0 < data.length := List.length_pos.mpr hne
      exact_mod_cast h0
    rw [mean, div_le_iff₀ hlen]
    have hsum : data.sum ≤ data.length * 255 := by
      have := List.sum_le_card_nsmul data 255 h
      simpa [smul_eq_mul] using this
    calc (data.sum : ℚ) ≤ ((data.length * 255 : ℕ) : ℚ) := by exact_mod_cast hsum
      _ = 255 * (data.length : ℚ) := by push_cast; ring

/-- The computed variance is non-negative. -/
theorem calculateVariance_nonneg (data : List ℕ) :
    0 ≤ calculateVariance data := by
  rw [calculateVariance]
  apply div_nonneg
  · apply List.sum_nonneg
    intro x hx
    obtain ⟨v, _, rfl⟩ := List.mem_map.mp hx
    positivity
  · positivity

/-- The computed variance of intensities bounded by 255 is at most
`255²`. -/
theorem calculateVariance_le (data : List ℕ) (h : ∀ v ∈ data, v ≤ 255) :
    calculateVariance data ≤ 255 ^ 2 := by
  rcases eq_or_ne data [] with rfl | hne
  · simp [calculateVariance]
  · have hlen : 0 < (data.length : ℚ) := by
      have h0 : 0 < data.length := List.length_pos.mpr hne
      exact_mod_cast h0
    have hμ0 : 0 ≤ mean data := mean_nonneg data
    have hμ255 : mean data ≤ 255 := mean_le data h
    rw [calculateVariance, List.length_map, div_le_iff₀ hlen]
    have hbound : ∀ x ∈ data.map fun (value : ℕ) => ((value : ℚ) - mean data) ^ 2,
        x ≤ (255 : ℚ) ^ 2 := by
      intro x hx
      obtain ⟨v, hv, rfl⟩ := List.mem_map.mp hx
      have hv255 : (v : ℚ) ≤ 255 := by exact_mod_cast h v hv
      have hv0 : (0 : ℚ) ≤ (v : ℚ) := by positivity
      apply sq_le_sq' <;> nlinarith
    calc (data.map fun (value : ℕ) => ((value : ℚ) - mean data) ^ 2).sum
        ≤ (data.map fun (value : ℕ) => ((value : ℚ) - mean data) ^ 2).length •
            (255 : ℚ) ^ 2 :=
          List.sum_le_card_nsmul _ _ hbound
      _ = 255 ^ 2 * (data.length : ℚ) := by
          rw [List.length_map, nsmul_eq_mul]
          ring

/-- The clamp `max 0 (min 1 ·)` lands in `[0,1]`. -/
theorem clamp_unit_bounds (e : ℚ) :
    0 ≤ max 0 (min 1 e) ∧ max 0 (min 1 e) ≤ 1 :=
  ⟨le_max_left 0 _, max_le (by norm_num) (min_le_left 1 e)⟩

/-- C10: the Laplacian estimator divides by the interior-pixel count with
no guard: whenever `width ≤ 2` or `height ≤ 2` that count is `0` and the
embedding takes the guarded `none` branch; under the precondition
`width ≥ 3 ∧ height ≥ 3` the error branch is unreachable and the result is
a defined score in `[0,1]`. -/
theorem calculateBlurScore_guard (pixels : List ℕ) (width height : ℕ) :
    ((width ≤ 2 ∨ height ≤ 2) → calculateBlurScore pixels width height = none) ∧
    (3 ≤ width → 3 ≤ height →
      ∃ q, calculateBlurScore pixels width height = some q ∧ 0 ≤ q ∧ q ≤ 1) := by
  constructor
  · intro h
    have hzero : (interiorCoords width height).length = 0 := by
      rw [interiorCoords_length]
      rcases h with h | h
      · rw [Nat.sub_eq_zero_of_le h, mul_zero]
      · rw [Nat.sub_eq_zero_of_le h, zero_mul]
    simp [calculateBlurScore, hzero]
  · intro hw hh
    have hne : ¬((interiorCoords width height).length = 0) := by
      rw [interiorCoords_length]
      have h1 : 1 ≤ height - 2 := by omega
      have h2 : 1 ≤ width - 2 := by omega
      positivity
    have heq : calculateBlurScore pixels width height =
        some (max 0 (min 1 (1 -
          (((interiorCoords width height).map fun c =>
            (laplacianAt pixels width (c.1 * width + c.2)).natAbs).sum : ℚ) /
            ((interiorCoords width height).length : ℚ) / 255))) := by
      simp only [calculateBlurScore, if_neg hne]
    exact ⟨_, heq, (clamp_unit_bounds _).1, (clamp_unit_bounds _).2⟩

/-- C10 witness: a 2-pixel-high buffer hits the guard, a 3×3 buffer passes
it with a score in `[0,1]`. -/
theorem calculateBlurScore_guard_witness :
    calculateBlurScore [0, 255, 0, 255] 2 2 = none ∧
    ∃ q, calculateBlurScore [0, 255, 0, 255, 0, 255, 0, 255, 0] 3 3 = some q ∧
      0 ≤ q ∧ q ≤ 1 :=
  ⟨(calculateBlurScore_guard [0, 255, 0, 255] 2 2).1 (Or.inl (by norm_num)),
   (calculateBlurScore_guard [0, 255, 0, 255, 0, 255, 0, 255, 0] 3 3).2
     (by norm_num) (by norm_num)⟩

/-- The explicit form of a passing blur-check result (shared helper). -/
theorem detectBlur_eq_of_pass (opts : BlurDetectorOptions)
    (meta : ImageMetadata) (data : List ℕ)
    (hcond : ¬(meta.width = 0 ∨ meta.height = 0 ∨ meta.width < opts.minWidth ∨
      meta.height < opts.minHeight)) :
    detectBlur opts meta data = .ok
      { isBlurry := decide (calculateVariance data / (255 * 255) < opts.blurThreshold)
        blurScore := calculateVariance data / (255 * 255)
        quality :=
          { brightness := mean data / 255
            contrast := Real.sqrt (((data.map fun (value : ℕ) =>
                ((value : ℚ) - mean data) ^ 2).sum / (data.length : ℚ) : ℚ) : ℝ) / 255
            width := meta.width
            height := meta.height
            format := meta.format }
        threshold := opts.blurThreshold
        recommendation :=
          if decide (calculateVariance data / (255 * 255) < opts.blurThreshold) then
            "Image is too blurry, please provide a clearer image"
          else "Image quality is acceptable" } := by
  rw [detectBlur, if_neg hcond]

/-- C6: for valid grayscale input (non-empty, intensities in `0..255`,
dimensions at least 3 where the Laplacian estimator runs), the brightness,
contrast and blur score of the readability path all lie in `[0,1]`, and so
do the brightness, contrast and (global-variance) blur score of every
successful blur-check result. -/
theorem quality_scores_in_unit_interval (pixels : List ℕ) (width height : ℕ)
    (opts : BlurDetectorOptions) (meta : ImageMetadata)
    (h255 : ∀ v ∈ pixels, v ≤ 255) (hw : 3 ≤ width) (hh : 3 ≤ height) :
    (∃ qm, analyzeImageQuality pixels width height = some qm ∧
      0 ≤ qm.brightness ∧ qm.brightness ≤ 1 ∧
      0 ≤ qm.contrast ∧ qm.contrast ≤ 1 ∧
      0 ≤ qm.blurScore ∧ qm.blurScore ≤ 1) ∧
    (∀ r, detectBlur opts meta pixels = .ok r →
      0 ≤ r.quality.brightness ∧ r.quality.brightness ≤ 1 ∧
      0 ≤ r.quality.contrast ∧ r.quality.contrast ≤ 1 ∧
      0 ≤ r.blurScore ∧ r.blurScore ≤ 1) := by
  have hμ0 : 0 ≤ mean pixels := mean_nonneg pixels
  have hμ255 : mean pixels ≤ 255 := mean_le pixels h255
  have hv0 : 0 ≤ calculateVariance pixels := calculateVariance_nonneg pixels
  have hv255 : calculateVariance pixels ≤ 255 ^ 2 := calculateVariance_le pixels h255
  have hbr0 : 0 ≤ mean pixels / 255 := by positivity
  have hbr1 : mean pixels / 255 ≤ 1 := by
    rw [div_le_one (by norm_num : (0 : ℚ) < 255)]
    exact hμ255
  have hsqrt0 : (0 : ℝ) ≤ Real.sqrt ((calculateVariance pixels : ℚ) : ℝ) / 255 := by
    positivity
  have hsqrt1 : Real.sqrt ((calculateVariance pixels : ℚ) : ℝ) / 255 ≤ 1 := by
    rw [div_le_one (by norm_num : (0 : ℝ) < 255)]
    calc Real.sqrt ((calculateVariance pixels : ℚ) : ℝ)
        ≤ Real.sqrt ((255 : ℝ) ^ 2) := by
          apply Real.sqrt_le_sqrt
          exact_mod_cast hv255
      _ = 255 := Real.sqrt_sq (by norm_num)
  constructor
  · have hne : ¬((interiorCoords width height).length = 0) := by
      rw [interiorCoords_length]
      have h1 : 1 ≤ height - 2 := by omega
      have h2 : 1 ≤ width - 2 := by omega
      positivity
    have hq : analyzeImageQuality pixels width height =
        some { contrast := Real.sqrt ((calculateVariance pixels : ℚ) : ℝ) / 255
               blurScore := max 0 (min 1 (1 -
                 (((interiorCoords width height).map fun c =>
                   (laplacianAt pixels width (c.1 * width + c.2)).natAbs).sum : ℚ) /
                   ((interiorCoords width height).length : ℚ) / 255))
               brightness := mean pixels / 255
               resolution := width * height } := by
      simp only [analyzeImageQuality, calculateBlurScore, if_neg hne]
      rfl
    exact ⟨_, hq, hbr0, hbr1, hsqrt0, hsqrt1, (clamp_unit_bounds _).1,
      (clamp_unit_bounds _).2⟩
  · intro r hr
    by_cases hcond : meta.width = 0 ∨ meta.height = 0 ∨
        meta.width < opts.minWidth ∨ meta.height < opts.minHeight
    · rw [detectBlur, if_pos hcond] at hr
      exact absurd hr (by simp)
    · have hform := (detectBlur_eq_of_pass opts meta pixels hcond).symm.trans hr
      have hr' := Except.ok.inj hform
      subst hr'
      have hinline :
          (pixels.map fun (value : ℕ) => ((value : ℚ) - mean pixels) ^ 2).sum /
            (pixels.length : ℚ) = calculateVariance pixels := by
        rw [calculateVariance, List.length_map]
      refine ⟨hbr0, hbr1, ?_, ?_, ?_, ?_⟩
      · show (0 : ℝ) ≤ Real.sqrt _ / 255
        rw [hinline]
        exact hsqrt0
      · show Real.sqrt _ / 255 ≤ 1
        rw [hinline]
        exact hsqrt1
      · show (0 : ℚ) ≤ calculateVariance pixels / (255 * 255)
        positivity
      · show calculateVariance pixels / (255 * 255) ≤ 1
        have h255sq : (0 : ℚ) < 255 * 255 := by norm_num
        rw [div_le_one h255sq]
        calc calculateVariance pixels ≤ 255 ^ 2 := hv255
          _ = 255 * 255 := by ring

/-- C6 witness: a concrete 3×3 buffer. -/
theorem quality_scores_in_unit_interval_witness :
    (∃ qm, analyzeImageQuality [0, 255, 0, 255, 0, 255, 0, 255, 0] 3 3 = some qm ∧
      0 ≤ qm.brightness ∧ qm.brightness ≤ 1 ∧
      0 ≤ qm.contrast ∧ qm.contrast ≤ 1 ∧
      0 ≤ qm.blurScore ∧ qm.blurScore ≤ 1) ∧
    (∀ r, detectBlur ⟨0.15, 3, 3⟩ ⟨3, 3, "raw"⟩
        [0, 255, 0, 255, 0, 255, 0, 255, 0] = .ok r →
      0 ≤ r.quality.brightness ∧ r.quality.brightness ≤ 1 ∧
      0 ≤ r.quality.contrast ∧ r.quality.contrast ≤ 1 ∧
      0 ≤ r.blurScore ∧ r.blurScore ≤ 1) :=
  quality_scores_in_unit_interval [0, 255, 0, 255, 0, 255, 0, 255, 0] 3 3
    ⟨0.15, 3, 3⟩ ⟨3, 3, "raw"⟩ (by decide) (by norm_num) (by norm_num)

/-- Test fixture: the intensity of a 1×1 black-and-white checkerboard at
coordinates `(x, y)` — adjacent pixels alternate between 0 and 255. -/
def checkerboardPixel (x y : ℕ) : ℕ :=
  if (x + y) % 2 = 0 then 0 else 255

/-- Test fixture: a row-major `width×height` grayscale buffer generated
from a per-coordinate intensity function. -/
def mkImage (width height : ℕ) (f : ℕ → ℕ → ℕ) : List ℕ :=
  (List.range height).flatMap fun y => (List.range width).map fun x => f x y

/-- Test fixture: the `width×height` checkerboard buffer. -/
def checkerboard (width height : ℕ) : List ℕ :=
  mkImage width height checkerboardPixel

/-- Reading a generated row at an in-range column. -/
theorem row_getD (w : ℕ) (g : ℕ → ℕ) (x : ℕ) (hx : x < w) :
    ((List.range w).map g).getD x 0 = g x := by
  rw [List.getD_eq_getElem _ _ (by simpa using hx)]
  simp

/-- A generated image has `height·width` pixels. -/
theorem mkImage_length (w h : ℕ) (f : ℕ → ℕ → ℕ) :
    (mkImage w h f).length = h * w := by
  rw [mkImage, List.length_flatMap, list_sum_range_map]
  simp [Function.comp]

/-- Reading a generated image at an in-range flat index recovers the
generating function. -/
theorem mkImage_getD (w h : ℕ) (f : ℕ → ℕ → ℕ) (x y : ℕ)
    (hx : x < w) (hy : y < h) :
    (mkImage w h f).getD (y * w + x) 0 = f x y := by
  induction h with
  | zero => omega
  | succ h ih =>
    rw [mkImage, List.range_succ, List.flatMap_append, List.flatMap_singleton]
    rcases Nat.lt_or_ge y h with hy' | hy'
    · have hidx : y * w + x < ((List.range h).flatMap fun y =>
          (List.range w).map fun x => f x y).length := by
        have hlen : ((List.range h).flatMap fun y =>
            (List.range w).map fun x => f x y).length = h * w := mkImage_length w h f
        rw [hlen]
        calc y * w + x < y * w + w := by omega
          _ = (y + 1) * w := by ring
          _ ≤ h * w := Nat.mul_le_mul_right w hy'
      rw [List.getD_append _ _ _ _ hidx]
      exact ih hy'
    · have hyh : y = h := by omega
      subst hyh
      have hlen : ((List.range y).flatMap fun y =>
          (List.range w).map fun x => f x y).length = y * w := mkImage_length w y f
      rw [List.getD_append_right _ _ _ _ (by rw [hlen]; omega), hlen]
      have hsub : y * w + x - y * w = x := by omega
      rw [hsub]
      exact row_getD w (fun x => f x y) x hx

/-- Every checkerboard intensity is 0 or 255. -/
theorem checkerboard_mem (w h : ℕ) :
    ∀ v ∈ checkerboard w h, v = 0 ∨ v = 255 := by
  intro v hv
  simp only [checkerboard, mkImage, List.mem_flatMap, List.mem_map,
    List.mem_range] at hv
  obtain ⟨y, _, x, _, rfl⟩ := hv
  rw [checkerboardPixel]
  split_ifs
  · exact Or.inl rfl
  · exact Or.inr rfl

/-- A checkerboard row of even width sums to half the row times 255. -/
theorem checkerboard_row_sum (k y : ℕ) :
    ((List.range (2 * k)).map fun x => checkerboardPixel x y).sum = k * 255 := by
  induction k with
  | zero => simp
  | succ k ih =>
    have h2 : 2 * (k + 1) = 2 * k + 1 + 1 := by ring
    rw [h2, List.range_succ, List.range_succ, List.map_append, List.map_append,
      List.sum_append, List.sum_append, ih]
    have hpair : checkerboardPixel (2 * k) y + checkerboardPixel (2 * k + 1) y = 255 := by
      unfold checkerboardPixel
      split_ifs <;> omega
    simp only [List.map_cons, List.map_nil, List.sum_cons, List.sum_nil]
    omega

/-- The total intensity of an even-width checkerboard. -/
theorem checkerboard_sum (k h : ℕ) :
    (checkerboard (2 * k) h).sum = h * (k * 255) := by
  induction h with
  | zero => simp [checkerboard, mkImage]
  | succ h ih =>
    rw [checkerboard, mkImage, List.range_succ, List.flatMap_append,
      List.flatMap_singleton, List.sum_append]
    rw [checkerboard, mkImage] at ih
    rw [ih, checkerboard_row_sum]
    ring

/-- The mean intensity of a non-degenerate even-width checkerboard is
`255/2`. -/
theorem checkerboard_mean (k h : ℕ) (hk : 1 ≤ k) (hh : 1 ≤ h) :
    mean (checkerboard (2 * k) h) = 255 / 2 := by
  rw [mean, checkerboard_sum, checkerboard, mkImage_length]
  have hk0 : ((h * (2 * k) : ℕ) : ℚ) ≠ 0 := by
    have : 0 < h * (2 * k) := by positivity
    exact_mod_cast this.ne'
  field_simp
  ring

/-- Sum of a list mapped to a constant value. -/
theorem sum_map_const_of {α M : Type} [AddCommMonoid M] (l : List α)
    (f : α → M) (c : M) (h : ∀ a ∈ l, f a = c) :
    (l.map f).sum = l.length • c := by
  induction l with
  | nil => simp
  | cons a l ih =>
    rw [List.map_cons, List.sum_cons, List.length_cons,
      h a (List.mem_cons_self a l), ih fun b hb => h b (List.mem_cons_of_mem a hb),
      succ_nsmul, add_comm]

/-- The computed variance of a non-degenerate even-width checkerboard is
`(255/2)²`: every intensity deviates from the mean by exactly `255/2`. -/
theorem checkerboard_variance (k h : ℕ) (hk : 1 ≤ k) (hh : 1 ≤ h) :
    calculateVariance (checkerboard (2 * k) h) = (255 / 2) ^ 2 := by
  have hmean := checkerboard_mean k h hk hh
  have hconst : ∀ v ∈ checkerboard (2 * k) h,
      (fun (value : ℕ) => ((value : ℚ) - mean (checkerboard (2 * k) h)) ^ 2) v =
        (255 / 2 : ℚ) ^ 2 := by
    intro v hv
    rcases checkerboard_mem (2 * k) h v hv with rfl | rfl <;>
      · rw [hmean]
        norm_num
  rw [calculateVariance, List.length_map, sum_map_const_of _ _ _ hconst]
  have hlen0 : ((checkerboard (2 * k) h).length : ℚ) ≠ 0 := by
    rw [checkerboard, mkImage_length]
    have : 0 < h * (2 * k) := by positivity
    exact_mod_cast this.ne'
  rw [nsmul_eq_mul, mul_comm, mul_div_assoc, div_self hlen0, mul_one]

/-- Members of the interior coordinate list satisfy the interior bounds. -/
theorem mem_interiorCoords {w h : ℕ} {c : ℕ × ℕ}
    (hc : c ∈ interiorCoords w h) :
    1 ≤ c.1 ∧ c.1 < h - 1 ∧ 1 ≤ c.2 ∧ c.2 < w - 1 := by
  simp only [interiorCoords, List.mem_flatMap, List.mem_map, List.mem_range] at hc
  obtain ⟨y, ⟨i, hi, rfl⟩, x, ⟨j, hj, rfl⟩, rfl⟩ := hc
  exact ⟨show 1 ≤ i + 1 by omega, show i + 1 < h - 1 by omega,
    show 1 ≤ j + 1 by omega, show j + 1 < w - 1 by omega⟩

/-- On the even-width checkerboard every interior pixel has four
opposite-colour neighbours, so the absolute discrete Laplacian is `1020`
everywhere in the interior. -/
theorem checkerboard_laplacian_abs (k h x y : ℕ)
    (hx1 : 1 ≤ x) (hx2 : x ≤ 2 * k - 2) (hy1 : 1 ≤ y) (hy2 : y ≤ h - 2)
    (hh : 3 ≤ h) (hk : 2 ≤ k) :
    (specLaplacian (checkerboard (2 * k) h) (2 * k) x y).natAbs = 1020 := by
  have hx : x < 2 * k := by omega
  have hxm : x - 1 < 2 * k := by omega
  have hxp : x + 1 < 2 * k := by omega
  have hyh : y < h := by omega
  have hym : y - 1 < h := by omega
  have hyp : y + 1 < h := by omega
  unfold specLaplacian pixelAt
  rw [checkerboard, mkImage_getD _ _ _ _ _ hx hyh,
    mkImage_getD _ _ _ _ _ hxm hyh, mkImage_getD _ _ _ _ _ hxp hyh,
    mkImage_getD _ _ _ _ _ hx hym, mkImage_getD _ _ _ _ _ hx hyp]
  unfold checkerboardPixel
  simp only [apply_ite (fun n : ℕ => (n : ℤ)), Nat.cast_zero, Nat.cast_ofNat]
  split_ifs <;> omega

/-- The Laplacian blur score of a non-degenerate even-width checkerboard is
exactly 0 (maximal sharpness). -/
theorem checkerboard_blurScore (k h : ℕ) (hk : 2 ≤ k) (hh : 3 ≤ h) :
    calculateBlurScore (checkerboard (2 * k) h) (2 * k) h = some 0 := by
  have hne : ¬((interiorCoords (2 * k) h).length = 0) := by
    rw [interiorCoords_length]
    have h1 : 1 ≤ h - 2 := by omega
    have h2 : 1 ≤ 2 * k - 2 := by omega
    positivity
  have hconst : ∀ c ∈ interiorCoords (2 * k) h,
      (fun c : ℕ × ℕ => (laplacianAt (checkerboard (2 * k) h) (2 * k)
        (c.1 * (2 * k) + c.2)).natAbs) c = 1020 := by
    intro c hc
    obtain ⟨hy1, hy2, hx1, hx2⟩ := mem_interiorCoords hc
    show (laplacianAt (checkerboard (2 * k) h) (2 * k) (c.1 * (2 * k) + c.2)).natAbs = 1020
    rw [laplacianAt_eq_specLaplacian _ _ _ _ hx1 hy1]
    exact checkerboard_laplacian_abs k h c.2 c.1 hx1 (by omega) hy1 (by omega) hh hk
  have hlen : ((interiorCoords (2 * k) h).length : ℚ) ≠ 0 := by
    exact_mod_cast hne
  simp only [calculateBlurScore, if_neg hne]
  rw [sum_map_const_of _ _ _ hconst]
  have hdiv : (((interiorCoords (2 * k) h).length • (1020 : ℕ) : ℕ) : ℚ) /
      ((interiorCoords (2 * k) h).length : ℚ) = 1020 := by
    rw [smul_eq_mul]
    push_cast
    rw [mul_comm, mul_div_assoc, div_self hlen, mul_one]
  rw [hdiv]
  have hclamp : max (0 : ℚ) (min 1 (1 - 1020 / 255)) = 0 := by
    have h1 : (1 : ℚ) - 1020 / 255 = -3 := by norm_num
    rw [h1, min_eq_right (by norm_num), max_eq_left (by norm_num)]
  rw [hclamp]

/-- C7 counterexample: on the 4×4 maximal-alternation checkerboard, the
global-variance blur score is exactly `1/4` — the maximum the normalized
variance can attain — and in particular nowhere near 1. -/
theorem checkerboard_globalVariance_not_near_one :
    calculateVariance (checkerboard 4 4) / (255 * 255) = 1 / 4 ∧
    ¬((3 : ℚ) / 4 ≤ calculateVariance (checkerboard 4 4) / (255 * 255)) := by
  have hv : calculateVariance (checkerboard 4 4) = (255 / 2) ^ 2 := by
    have h := checkerboard_variance 2 4 (by norm_num) (by norm_num)
    simpa using h
  rw [hv]
  constructor <;> norm_num

/-- C7 amended: every non-degenerate even-width checkerboard with maximal
pixel-to-pixel alternation has Laplacian blur score exactly 0 (maximal
sharpness) and global-variance blur score exactly `1/4` — the maximum
attainable normalized variance, not a value near 1 (at the default 0.15
threshold the image is therefore not flagged blurry). -/
theorem checkerboard_estimators (k h : ℕ) (hk : 2 ≤ k) (hh : 3 ≤ h) :
    calculateBlurScore (checkerboard (2 * k) h) (2 * k) h = some 0 ∧
    calculateVariance (checkerboard (2 * k) h) / (255 * 255) = 1 / 4 := by
  refine ⟨checkerboard_blurScore k h hk hh, ?_⟩
  rw [checkerboard_variance k h (by omega) (by omega)]
  norm_num

/-- C7 amended, witness: the 4×4 checkerboard. -/
theorem checkerboard_estimators_witness :
    calculateBlurScore (checkerboard (2 * 2) 4) (2 * 2) 4 = some 0 ∧
    calculateVariance (checkerboard (2 * 2) 4) / (255 * 255) = 1 / 4 :=
  checkerboard_estimators 2 4 (by norm_num) (by norm_num)

/-- The result of `checkReadability` once the quality metrics are known
(shared helper): the score is the weighted combination of the supplied
confidence, the Laplacian blur score, the contrast, and the whitespace-split
word count, and `isReadable` is exactly `score ≥ 70`. -/
theorem checkReadability_eval (opts : ReadabilityCheckerOptions)
    (meta : ImageMetadata) (pixels : List ℕ) (ocrResult : String)
    (confidenceScore : ℚ) (qm : QualityMetrics)
    (hq : analyzeImageQuality pixels meta.width meta.height = some qm) :
    ∃ r, checkReadability opts meta pixels ocrResult confidenceScore = some r ∧
      r.readabilityScore = calculateReadabilityScore (confidenceScore : ℝ)
        ((qm.blurScore : ℚ) : ℝ) qm.contrast
        ((((ocrResult.toList.splitOnP fun c => c.isWhitespace).filter
          fun w => 0 < w.length).length : ℕ) : ℝ) ∧
      (r.isReadable ↔ 70 ≤ r.readabilityScore) := by
  rw [checkReadability, hq]
  exact ⟨_, rfl, rfl, Iff.rfl⟩

/-- Synthetic OCR output of exactly fifty whitespace-separated words. -/
def fiftyWords : String :=
  "w w w w w w w w w w w w w w w w w w w w w w w w w w w w w w w w w w w w w w w w w w w w w w w w w w"

/-- C8: on the 400×400 maximal-alternation checkerboard with synthetic OCR
confidence 90 and fifty recognized words, the readability path scores
`86 ≥ 70` (blur sub-score 100 from Laplacian blur 0, contrast sub-score 50,
word-count sub-score 100) and reports the document readable. -/
theorem readability_checkerboard_400 :
    ∃ r, checkReadability ⟨0.15, 60, 10⟩ ⟨400, 400, "png"⟩
        (checkerboard 400 400) fiftyWords 90 = some r ∧
      r.isReadable ∧ (70 : ℝ) ≤ r.readabilityScore := by
  have hblur : calculateBlurScore (checkerboard 400 400) 400 400 = some 0 := by
    have h := checkerboard_blurScore 200 400 (by norm_num) (by norm_num)
    simpa using h
  have hvar : calculateVariance (checkerboard 400 400) = (255 / 2) ^ 2 := by
    have h := checkerboard_variance 200 400 (by norm_num) (by norm_num)
    simpa using h
  have hq : analyzeImageQuality (checkerboard 400 400) 400 400 =
      some { contrast := Real.sqrt ((((255 / 2 : ℚ) ^ 2 : ℚ)) : ℝ) / 255
             blurScore := 0
             brightness := mean (checkerboard 400 400) / 255
             resolution := 400 * 400 } := by
    rw [analyzeImageQuality, hblur]
    show some _ = some _
    rw [hvar]
  obtain ⟨r, hck, hscore, hread⟩ := checkReadability_eval ⟨0.15, 60, 10⟩
    ⟨400, 400, "png"⟩ (checkerboard 400 400) fiftyWords 90 _ hq
  have hwords : ((fiftyWords.toList.splitOnP fun c => c.isWhitespace).filter
      fun w => 0 < w.length).length = 50 := by decide
  have hsqrt : Real.sqrt ((((255 / 2 : ℚ) ^ 2 : ℚ)) : ℝ) = 255 / 2 := by
    have hc : ((((255 / 2 : ℚ) ^ 2 : ℚ)) : ℝ) = (255 / 2 : ℝ) ^ 2 := by
      push_cast
      ring
    rw [hc, Real.sqrt_sq (by norm_num)]
  have hmin : min (((50 : ℕ) : ℝ) / 10 * 100) 100 = 100 := by
    have h500 : ((50 : ℕ) : ℝ) / 10 * 100 = 500 := by
      push_cast
      norm_num
    rw [h500]
    exact min_eq_right (by norm_num)
  have hscore86 : r.readabilityScore = 86 := by
    rw [hscore]
    dsimp only
    rw [readability_score_eval, hwords, hsqrt, hmin]
    push_cast
    norm_num
  exact ⟨r, hck, hread.mpr (by rw [hscore86]; norm_num),
    by rw [hscore86]; norm_num⟩

/-- Spec-side: the suggestion rule table in its fixed evaluation order —
each entry pairs a trigger condition with its message; the second entry
carries the `else` of the first. -/
def suggestionRules (blurThreshold minConfidence readabilityScore blurScore
    contrast brightness confidenceScore : ℚ) : List (Bool × String) :=
  [(decide (readabilityScore < 50),
    "Overall document quality is poor. Consider recapturing with better lighting and focus."),
   (decide (¬(readabilityScore < 50) ∧ readabilityScore < 70),
    "Document quality could be improved for better text recognition."),
   (decide (blurScore > blurThreshold),
    "Document appears blurry. Try capturing a clearer image."),
   (decide (contrast < 0.4),
    "Low contrast detected. Ensure good lighting and clear background."),
   (decide (brightness < 0.3 ∨ brightness > 0.8),
    "Suboptimal brightness. Adjust lighting conditions."),
   (decide (confidenceScore < minConfidence),
    "Text recognition confidence is low. Ensure text is clear and well-aligned.")]

/-- C9: the generated suggestion list is exactly the order-preserving
selection of the triggered rules from the fixed rule table, and when no
condition triggers, the list is empty. -/
theorem generateSuggestions_spec (bt mc rs b c br cf : ℚ) :
    generateSuggestions bt mc rs b c br cf =
      ((suggestionRules bt mc rs b c br cf).filter fun rule => rule.1).map
        (fun rule => rule.2) ∧
    (¬(rs < 50) → ¬(rs < 70) → ¬(b > bt) → ¬(c < 0.4) →
      ¬(br < 0.3 ∨ br > 0.8) → ¬(cf < mc) →
      generateSuggestions bt mc rs b c br cf = []) := by
  constructor
  · rw [generateSuggestions, suggestionRules]
    by_cases h1 : rs < 50 <;> by_cases h2 : rs < 70 <;> by_cases h3 : b > bt <;>
      by_cases h4 : c < 0.4 <;> by_cases h5 : br < 0.3 ∨ br > 0.8 <;>
      by_cases h6 : cf < mc <;>
      simp [h1, h2, h3, h4, h5, h6, List.filter_cons, List.filter_nil]
  · intro h1 h2 h3 h4 h5 h6
    rw [generateSuggestions]
    simp [h1, h2, h3, h4, h5, h6]

/-- C9 witness: no condition triggers at score 80, blur 0.1, contrast 0.5,
brightness 0.5, confidence 70 against the default thresholds, and the list
is empty. -/
theorem generateSuggestions_spec_witness :
    generateSuggestions (0.15 : ℚ) 60 80 0.1 0.5 0.5 70 =
      ((suggestionRules (0.15 : ℚ) 60 80 0.1 0.5 0.5 70).filter
        fun rule => rule.1).map (fun rule => rule.2) ∧
    generateSuggestions (0.15 : ℚ) 60 80 0.1 0.5 0.5 70 = [] :=
  ⟨(generateSuggestions_spec 0.15 60 80 0.1 0.5 0.5 70).1,
   (generateSuggestions_spec 0.15 60 80 0.1 0.5 0.5 70).2 (by norm_num)
     (by norm_num) (by norm_num) (by norm_num)
     (by push_neg; constructor <;> norm_num) (by norm_num)⟩

/-- C3 amended, witness at concrete inputs. -/
theorem readabilityScore_monotone_witness :
    calculateReadabilityScore (10 : ℚ) 0 0 0 ≤ calculateReadabilityScore (20 : ℚ) 0 0 0 ∧
    calculateReadabilityScore (5 : ℚ) 1 0 0 ≤ calculateReadabilityScore (5 : ℚ) 0 0 0 ∧
    calculateReadabilityScore (5 : ℚ) 0 0 0 ≤ calculateReadabilityScore (5 : ℚ) 0 1 0 ∧
    calculateReadabilityScore (5 : ℚ) 0 0 0 ≤ calculateReadabilityScore (5 : ℚ) 0 0 1 :=
  readabilityScore_monotone 10 20 0 1 0 1 0 1 5 0 0 0
    (by norm_num) (by norm_num) (by norm_num) (by norm_num)

end OCRDemo
